import Mathlib

/-!
Shallow embedding of LibreCard's backend (src/backend.rs): the fan-out copy
pipeline, the progress reporting of the directory orchestrators, the tree
flattener, the content hasher and the checksum report, together with proofs
about them.

Conventions of the embedding:
- bytes are Nat (values < 256 play no arithmetic role here);
- a file's error-free read sequence is a list of non-empty chunks (the
  successive successful reads, each at most the buffer size), the final
  zero-byte read being the end of the list;
- fallible filesystem operations return Except Nat, the Nat standing for an
  io Error value.
-/

namespace LibreCard

/-- Progress, backend.rs lines 31–34. -/
structure Progress where
  total : Nat
  completed : Nat
deriving DecidableEq

/-- Progress::increment, backend.rs lines 40–45: a fresh value with the same
total and completed advanced by one. -/
def Progress.increment (p : Progress) : Progress :=
  { total := p.total, completed := p.completed + 1 }

/-- Progress::mut_increment, backend.rs lines 36–38 (unused by copy_dirs). -/
def Progress.mut_increment (p : Progress) : Progress :=
  { p with completed := p.completed + 1 }

/-- BUFFER_SIZE, backend.rs line 74: 1 MiB chunk buffers of the copy loop. -/
def BUFFER_SIZE : Nat := 1024 * 1024

/-- CHUNK_SIZE, backend.rs line 246: 1 MiB read buffer of the hasher. -/
def CHUNK_SIZE : Nat := 1024 * 1024

/-- Effect of source_file.read(buf) placing a chunk c at the start of the
buffer: the first c.length bytes become c, the rest of the buffer keeps its
previous content. -/
def readBytes (buf : List Nat) (c : List Nat) : List Nat :=
  c ++ buf.drop c.length

/-- Outcome of an error-free run of read_file_copy_batch:
the returned total byte count, the successive chunks written (each chunk is
written once, via write_all, to every destination), and the number of
destination files created (File::create truncates each to empty before the
first read, backend.rs lines 61–70). -/
structure CopyOutcome where
  total_bytes : Nat
  writes : List (List Nat)
  dests_created : Nat
deriving DecidableEq

/-- The main copy loop of read_file_copy_batch, backend.rs lines 89–125.
Arguments: the chunks still to be read, the two rotated buffers in their
pre-swap roles (rb = read_buffer, wb = write_buffer), bytes_read from the most
recent read, the running total_bytes, and the chunks written so far.
Each iteration swaps the buffer roles (so the new write buffer is the old
read_buffer rb), writes the first bytes_read bytes of the new write buffer to
every destination, and concurrently reads the next chunk into the new read
buffer (the old wb); a zero-byte read adds 0 to the total and exits. -/
def copyLoop : List (List Nat) → List Nat → List Nat → Nat → Nat → List (List Nat) →
    Nat × List (List Nat)
  | [], rb, _wb, bytes_read, total, ws => (total, ws ++ [rb.take bytes_read])
  | c :: rest, rb, wb, bytes_read, total, ws =>
      copyLoop rest (readBytes wb c) rb c.length (total + c.length) (ws ++ [rb.take bytes_read])

/-- read_file_copy_batch, backend.rs lines 47–136, for an error-free run whose
successive non-empty reads are chunks. All nDest destinations are created
(truncated to empty) first; then the first chunk is read into write_buffer
(initially buffer1, backend.rs lines 79–83); if that read returns zero bytes
the function returns 0 at once with nothing written; otherwise the main loop
runs with read_buffer = buffer2 and bytes_read = the first chunk's length. -/
def read_file_copy_batch (nDest : Nat) (chunks : List (List Nat)) : CopyOutcome :=
  let buffer1 := List.replicate BUFFER_SIZE 0
  let buffer2 := List.replicate BUFFER_SIZE 0
  match chunks with
  | [] => { total_bytes := 0, writes := [], dests_created := nDest }
  | c1 :: rest =>
      let wb := readBytes buffer1 c1
      let r := copyLoop rest buffer2 wb c1.length 0 []
      { total_bytes := r.1, writes := r.2, dests_created := nDest }

/-- The byte sequence each destination file holds after an error-free run:
every chunk in writes is appended, in order, to every destination. -/
def destContent (nDest : Nat) (chunks : List (List Nat)) : List Nat :=
  (read_file_copy_batch nDest chunks).writes.flatten

theorem copyLoop_fst (chunks : List (List Nat)) :
    ∀ rb wb bytes_read total ws,
      (copyLoop chunks rb wb bytes_read total ws).1 = total + (chunks.map List.length).sum := by
  induction chunks with
  | nil => intro rb wb bytes_read total ws; simp [copyLoop]
  | cons c rest ih =>
      intro rb wb bytes_read total ws
      simp [copyLoop, ih, Nat.add_assoc]

theorem copyLoop_snd (chunks : List (List Nat)) :
    ∀ rb wb bytes_read total ws,
      (copyLoop chunks rb wb bytes_read total ws).2 = ws ++ rb.take bytes_read :: chunks := by
  induction chunks with
  | nil => intro rb wb bytes_read total ws; simp [copyLoop]
  | cons c rest ih =>
      intro rb wb bytes_read total ws
      simp [copyLoop, ih, readBytes, List.take_left]

theorem read_file_copy_batch_total (nDest : Nat) (c1 : List Nat) (rest : List (List Nat)) :
    (read_file_copy_batch nDest (c1 :: rest)).total_bytes = (rest.map List.length).sum := by
  simp [read_file_copy_batch, copyLoop_fst]

theorem read_file_copy_batch_writes (nDest : Nat) (c1 : List Nat) (rest : List (List Nat))
    (h : c1.length ≤ BUFFER_SIZE) :
    (read_file_copy_batch nDest (c1 :: rest)).writes =
      List.replicate c1.length 0 :: rest := by
  simp [read_file_copy_batch, copyLoop_snd, List.take_replicate, Nat.min_eq_left h]

/-- Claim C1 (code behavior at the failing input): copying a 5-byte file
("hello") read in a single 5-byte chunk to one destination returns a total of
0 bytes, not 5 — total_bytes is only updated for reads issued inside the main
loop, so the pre-loop first read is never counted. -/
theorem read_file_copy_batch_drops_first_read :
    (read_file_copy_batch 1 [[104, 101, 108, 108, 111]]).total_bytes = 0 ∧ (0 : Nat) ≠ 5 := by
  constructor
  · simpa using read_file_copy_batch_total 1 [104, 101, 108, 108, 111] []
  · decide

/-- Claim C3 (code behavior at the failing input): copying the 2-byte file
[104, 105] ("hi") to one destination writes [0, 0]: the pre-loop read puts
chunk 1 into write_buffer, the loop then swaps the roles before writing, so
the first write sends the untouched zero-initialized other buffer and the
next read overwrites chunk 1. The destination content differs from the
source content. -/
theorem read_file_copy_batch_zeroes_first_chunk :
    destContent 1 [[104, 105]] = [0, 0] ∧ ([0, 0] : List Nat) ≠ [104, 105] := by
  constructor
  · have h : ([104, 105] : List Nat).length ≤ BUFFER_SIZE := by decide
    simp [destContent, read_file_copy_batch_writes 1 [104, 105] [] h]
  · decide

/-- Claim C5: copying an empty (0-byte) source file — the read sequence is
empty — to any number of destinations returns 0 total bytes, issues no write
to any destination, and still creates (truncates) every destination file. -/
theorem read_file_copy_batch_empty_source (nDest : Nat) :
    read_file_copy_batch nDest [] =
      { total_bytes := 0, writes := [], dests_created := nDest } := by
  rfl

/-- The Progress values published on the watch channel by copy_dirs,
backend.rs lines 144–172, when the first k files of the enumeration complete
(k = files.length for a run that succeeds). The outer binding at lines
145–148 is Progress with total = files.length and completed = 0; the loop
body's binding at line 170 shadows it only inside one iteration, so every
iteration recomputes increment() of the outer value and line 171 sends a
Progress whose completed field is always 1. -/
def copy_dirs_progress (files : List (List String)) (k : Nat) : List Progress :=
  let progress : Progress := { total := files.length, completed := 0 }
  (files.take k).map (fun _ => progress.increment)

/-- The Progress values published by hash_dirs, backend.rs lines 202–237:
the function has no channel sender argument and publishes nothing. -/
def hash_dirs_progress : List Progress := []

/-- Claim C2 (code behavior at the failing input): copying a two-file tree
publishes [⟨2, 1⟩, ⟨2, 1⟩] — the value published after the second file has
completed = 1, not 2 — and the verification phase publishes no Progress at
all. -/
theorem copy_dirs_progress_stuck_at_one :
    copy_dirs_progress [["a"], ["b"]] 2 =
        [{ total := 2, completed := 1 }, { total := 2, completed := 1 }] ∧
      hash_dirs_progress = [] := by
  constructor <;> rfl

theorem copy_dirs_progress_eq_replicate (files : List (List String)) (k : Nat) :
    copy_dirs_progress files k =
      List.replicate (files.take k).length { total := files.length, completed := 1 } := by
  simp [copy_dirs_progress, Progress.increment, List.map_const]

theorem chain'_replicate {α : Type} (R : α → α → Prop) (a : α) (h : R a a) :
    ∀ n, List.Chain' R (List.replicate n a)
  | 0 => List.chain'_nil
  | 1 => List.chain'_singleton a
  | n + 2 => by
      rw [List.replicate_succ]
      exact List.Chain'.cons h (chain'_replicate R a h (n + 1))

/-- Claim C7: every Progress value published by the copy orchestrator during
one operation (the loop having completed k files of the enumeration) has
0 ≤ completed ≤ total, the total field equals the enumeration's length in
every published value, and the completed field is non-decreasing from one
published value to the next. -/
theorem copy_dirs_progress_invariants (files : List (List String)) (k : Nat) :
    (∀ p ∈ copy_dirs_progress files k,
        0 ≤ p.completed ∧ p.completed ≤ p.total ∧ p.total = files.length) ∧
      List.Chain' (fun a b : Progress => a.completed ≤ b.completed)
        (copy_dirs_progress files k) := by
  constructor
  · intro p hp
    rw [copy_dirs_progress_eq_replicate] at hp
    have hne := List.ne_nil_of_mem hp
    have hk : (files.take k).length ≠ 0 := by
      intro h0
      rw [h0] at hne
      exact hne rfl
    have hmem := List.eq_of_mem_replicate hp
    subst hmem
    have hlen : (files.take k).length = min k files.length := List.length_take k files
    have hfiles : 1 ≤ files.length := by omega
    exact ⟨Nat.zero_le _, hfiles, rfl⟩
  · rw [copy_dirs_progress_eq_replicate]
    exact chain'_replicate (fun a b : Progress => a.completed ≤ b.completed) _
      (Nat.le_refl _) _

/-- Witness for C7 at a one-file enumeration. -/
theorem copy_dirs_progress_invariants_witness :
    (0 ≤ (1 : Nat) ∧ 1 ≤ ({ total := 1, completed := 1 } : Progress).total ∧
        ({ total := 1, completed := 1 } : Progress).total = 1) ∧
      List.Chain' (fun a b : Progress => a.completed ≤ b.completed)
        (copy_dirs_progress [["a"]] 1) := by
  have h := copy_dirs_progress_invariants [["a"]] 1
  refine ⟨?_, h.2⟩
  have hm : ({ total := 1, completed := 1 } : Progress) ∈ copy_dirs_progress [["a"]] 1 := by
    decide
  exact h.1 _ hm

/-- ChecksumReportSingleFile, backend.rs lines 178–181: the source's
(path, hash) pair and the (path, hash) pair of each destination. Paths are
modelled as lists of components, 64-bit hash values as Nat. -/
structure ChecksumReportSingleFile where
  source_hash : List String × Nat
  destination_hash : List (List String × Nat)
deriving DecidableEq

/-- ChecksumReport, backend.rs line 176: records mirrors the tuple field .0. -/
structure ChecksumReport where
  records : List ChecksumReportSingleFile
deriving DecidableEq

/-- ChecksumReport::total_files, backend.rs lines 184–186. -/
def ChecksumReport.total_files (r : ChecksumReport) : Nat :=
  r.records.length

/-- ChecksumReport::count_errors, backend.rs lines 188–199: the number of
records in which some destination hash differs from the source hash. -/
def ChecksumReport.count_errors (r : ChecksumReport) : Nat :=
  (r.records.filter (fun report =>
    report.destination_hash.any (fun dh => report.source_hash.2 != dh.2))).length

/-- From the spec's words (§3): a record is consistent iff every one of its
destination hashes equals its source hash. -/
def recordConsistent (rec : ChecksumReportSingleFile) : Bool :=
  rec.destination_hash.all (fun dh => dh.2 == rec.source_hash.2)

theorem any_ne_eq_not_all_eq (a : Nat) (l : List (List String × Nat)) :
    l.any (fun dh => a != dh.2) = ! l.all (fun dh => dh.2 == a) := by
  induction l with
  | nil => rfl
  | cons x xs ih =>
      simp only [List.any_cons, List.all_cons, Bool.not_and, ih]
      congr 1
      by_cases h : a = x.2
      · subst h
        simp [bne]
      · have h2 : (a == x.2) = false := by simpa using h
        have h3 : (x.2 == a) = false := by simpa using Ne.symm h
        rw [bne, h2, h3]

/-- Claim C4: count_errors returns exactly the number of records in which at
least one destination hash differs from that record's source hash, a record
counting as consistent iff every one of its destination hashes equals its
source hash. -/
theorem count_errors_counts_inconsistent_records (r : ChecksumReport) :
    r.count_errors = (r.records.filter (fun rec => ! recordConsistent rec)).length := by
  unfold ChecksumReport.count_errors recordConsistent
  congr 1
  apply List.filter_congr
  intro rec _
  exact any_ne_eq_not_all_eq rec.source_hash.2 rec.destination_hash

/-- Claim C10: count_errors never exceeds total_files, a record whose
destination-hash list is empty is never counted as an error, and a report in
which every record has an empty destination list has count_errors 0. -/
theorem count_errors_le_total_files (r : ChecksumReport) :
    r.count_errors ≤ r.total_files ∧
      ((∀ rec ∈ r.records, rec.destination_hash = []) → r.count_errors = 0) := by
  constructor
  · exact List.length_filter_le _ _
  · intro h
    unfold ChecksumReport.count_errors
    rw [List.filter_eq_nil_iff.mpr, List.length_nil]
    intro rec hrec
    rw [h rec hrec]
    simp

/-- Witness for C10 at a one-record report with an empty destination list. -/
theorem count_errors_le_total_files_witness :
    (ChecksumReport.mk [⟨(["a"], 5), []⟩]).count_errors ≤
        (ChecksumReport.mk [⟨(["a"], 5), []⟩]).total_files ∧
      (ChecksumReport.mk [⟨(["a"], 5), []⟩]).count_errors = 0 := by
  have h := count_errors_le_total_files (ChecksumReport.mk [⟨(["a"], 5), []⟩])
  exact ⟨h.1, h.2 (by decide)⟩

/-- Modelled from the spec: the twox_hash crate's XxHash3_64 streaming hasher
is an external dependency, not part of this repository. Per the spec (§4.4 /
§2) it is a fast non-cryptographic 64-bit content hash of exactly the bytes
streamed through write, so the state is modelled as the absorbed byte
stream, and the digest as an arbitrary function of that stream. -/
structure XxHash3_64 where
  absorbed : List Nat

/-- XxHash3_64::default(), backend.rs line 244: a hasher with nothing
absorbed yet. -/
def XxHash3_64.init : XxHash3_64 := ⟨[]⟩

/-- Hasher::write, backend.rs line 258: absorbs the given bytes after all
bytes already absorbed. -/
def XxHash3_64.write (h : XxHash3_64) (bytes : List Nat) : XxHash3_64 :=
  ⟨h.absorbed ++ bytes⟩

/-- Hasher::finish, backend.rs line 262: the digest of the absorbed stream,
for an abstract digest function standing for XXH3-64. -/
def XxHash3_64.finish (digest : List Nat → Nat) (h : XxHash3_64) : Nat :=
  digest h.absorbed

/-- The read loop of compute_file_hash, backend.rs lines 249–259: each
successful non-empty read places its chunk at the start of the single reused
buffer and the first bytes_read bytes of the buffer are written into the
hasher; a zero-byte read exits the loop and the digest is returned. -/
def hashLoop (digest : List Nat → Nat) :
    List (List Nat) → List Nat → XxHash3_64 → Nat
  | [], _buffer, h => XxHash3_64.finish digest h
  | c :: rest, buffer, h =>
      let buffer2 := readBytes buffer c
      hashLoop digest rest buffer2 (h.write (buffer2.take c.length))

/-- compute_file_hash, backend.rs lines 239–263, for an error-free run whose
successive non-empty reads are chunks: stream them through a fresh hasher
over a zero-initialized CHUNK_SIZE buffer. -/
def compute_file_hash (digest : List Nat → Nat) (chunks : List (List Nat)) : Nat :=
  hashLoop digest chunks (List.replicate CHUNK_SIZE 0) XxHash3_64.init

theorem hashLoop_eq (digest : List Nat → Nat) (chunks : List (List Nat)) :
    ∀ buffer h, hashLoop digest chunks buffer h = digest (h.absorbed ++ chunks.flatten) := by
  induction chunks with
  | nil => intro buffer h; simp [hashLoop, XxHash3_64.finish]
  | cons c rest ih =>
      intro buffer h
      simp [hashLoop, ih, readBytes, List.take_left, XxHash3_64.write]

/-- Claim C8: for every file content and every partition of it into a
sequence of non-empty chunks fed to the hasher in order, compute_file_hash
produces the digest of the whole content — the streamed digest is
independent of where the reads split the content. -/
theorem compute_file_hash_stream_eq (digest : List Nat → Nat)
    (chunks : List (List Nat)) (content : List Nat)
    (_hne : ∀ c ∈ chunks, c ≠ []) (hjoin : chunks.flatten = content) :
    compute_file_hash digest chunks = digest content := by
  rw [compute_file_hash, hashLoop_eq, XxHash3_64.init, hjoin]
  rfl

/-- Witness for C8: the content [1, 2, 3] split as [1] ++ [2, 3] hashes like
the whole content, for the sample digest function List.sum. -/
theorem compute_file_hash_stream_eq_witness :
    compute_file_hash (fun l => l.sum) [[1], [2, 3]] = ([1, 2, 3] : List Nat).sum := by
  exact compute_file_hash_stream_eq (fun l => l.sum) [[1], [2, 3]] [1, 2, 3]
    (by decide) (by rfl)

mutual

/-- A directory's read_dir outcome: unreadable with an io Error value, or a
readable list of entries. -/
inductive FsDir where
| unreadable (err : Nat) : FsDir
| readable (entries : FsList) : FsDir

/-- A directory entry: a non-directory file, or a subdirectory. -/
inductive FsNode where
| file (name : String) : FsNode
| dir (name : String) (d : FsDir) : FsNode

/-- A list of directory entries in read_dir order. -/
inductive FsList where
| nil : FsList
| cons (head : FsNode) (tail : FsList) : FsList

end

mutual

/-- flatten_filetree_recur, backend.rs lines 12–25, reading one directory:
a failed read_dir aborts with its error, otherwise the entries are
traversed in order. rel is the path of this directory relative to base_dir. -/
def flatten_filetree_recur (rel : List String) : FsDir → Except Nat (List (List String))
| .unreadable err => .error err
| .readable entries => flatten_entries rel entries

/-- The entry loop of flatten_filetree_recur, backend.rs lines 14–23: each
entry's files extend the result in order; the first error aborts. -/
def flatten_entries (rel : List String) : FsList → Except Nat (List (List String))
| .nil => .ok []
| .cons n rest =>
    match flatten_entry rel n with
    | .error e => .error e
    | .ok l1 =>
        match flatten_entries rel rest with
        | .error e => .error e
        | .ok l2 => .ok (l1 ++ l2)

/-- One entry of the loop body, backend.rs lines 17–22: a subdirectory is
recursed into; a file contributes its path relative to base_dir
(path.strip_prefix(base_dir)). -/
def flatten_entry (rel : List String) : FsNode → Except Nat (List (List String))
| .file name => .ok [rel ++ [name]]
| .dir name d => flatten_filetree_recur (rel ++ [name]) d

end

/-- flatten_filetree, backend.rs lines 27–29: traverse from the root, paths
relative to it. -/
def flatten_filetree (root : FsDir) : Except Nat (List (List String)) :=
  flatten_filetree_recur [] root

mutual

/-- Every directory along the traversal of this directory can be read. -/
def dirReadable : FsDir → Bool
| .unreadable _ => false
| .readable entries => entriesReadable entries

/-- Every directory along the traversal of these entries can be read. -/
def entriesReadable : FsList → Bool
| .nil => true
| .cons n rest => nodeReadable n && entriesReadable rest

/-- Every directory along the traversal of this entry can be read. -/
def nodeReadable : FsNode → Bool
| .file _ => true
| .dir _ d => dirReadable d

end

mutual

theorem flatten_recur_isOk :
    ∀ (rel : List String) (d : FsDir),
      (flatten_filetree_recur rel d).isOk = dirReadable d
| _, .unreadable _ => rfl
| rel, .readable es => flatten_entries_isOk rel es

theorem flatten_entries_isOk :
    ∀ (rel : List String) (l : FsList),
      (flatten_entries rel l).isOk = entriesReadable l
| _, .nil => rfl
| rel, .cons n rest => by
    have hn := flatten_entry_isOk rel n
    have hr := flatten_entries_isOk rel rest
    cases he : flatten_entry rel n with
    | error e =>
        rw [he] at hn
        simp [flatten_entries, he, entriesReadable, ← hn, Except.isOk, Except.toBool]
    | ok l1 =>
        rw [he] at hn
        cases hes : flatten_entries rel rest with
        | error e =>
            rw [hes] at hr
            simp [flatten_entries, he, hes, entriesReadable, ← hn, ← hr,
              Except.isOk, Except.toBool]
        | ok l2 =>
            rw [hes] at hr
            simp [flatten_entries, he, hes, entriesReadable, ← hn, ← hr,
              Except.isOk, Except.toBool]

theorem flatten_entry_isOk :
    ∀ (rel : List String) (n : FsNode),
      (flatten_entry rel n).isOk = nodeReadable n
| _, .file _ => rfl
| rel, .dir name d => flatten_recur_isOk (rel ++ [name]) d

end

/-- Claim C9: flatten_filetree returns a list exactly when every directory
along the traversal was read successfully — if reading any encountered
directory fails it returns an I/O error and no list at all (no partial
enumeration) — and an unreadable root propagates its own error value. -/
theorem flatten_filetree_isOk_iff_readable :
    (∀ root : FsDir, (flatten_filetree root).isOk = dirReadable root) ∧
      ∀ e : Nat, flatten_filetree (FsDir.unreadable e) = Except.error e := by
  exact ⟨fun root => flatten_recur_isOk [] root, fun e => rfl⟩

/-- The destination-hash collection loop of hash_dirs, backend.rs lines
220–229: the hash results are paired with their destination paths in order;
the first failed hash computation aborts with its error. hashFn abstracts
compute_file_hash's result on the ambient filesystem for a given path. -/
def collectDestHashes (hashFn : List String → Except Nat Nat) :
    List (List String) → Except Nat (List (List String × Nat))
  | [] => .ok []
  | p :: rest =>
      match hashFn p with
      | .error e => .error e
      | .ok h =>
          match collectDestHashes hashFn rest with
          | .error e => .error e
          | .ok tl => .ok ((p, h) :: tl)

/-- The per-file loop of hash_dirs, backend.rs lines 206–235: for each file
of the enumeration, source_path = source.join(file) and
dest_paths = dest.map(|d| d.join(file)); source and destination hashes are
computed concurrently and joined; destination errors are surfaced first
(lines 221–229), then the source hash's (line 232); the record is appended
before the next file is processed. -/
def hash_files (hashFn : List String → Except Nat Nat) (source : List String)
    (dest : List (List String)) :
    List (List String) → Except Nat (List ChecksumReportSingleFile)
  | [] => .ok []
  | f :: rest =>
      match collectDestHashes hashFn (dest.map (fun d => d ++ f)) with
      | .error e => .error e
      | .ok dhs =>
          match hashFn (source ++ f) with
          | .error e => .error e
          | .ok sh =>
              match hash_files hashFn source dest rest with
              | .error e => .error e
              | .ok tl => .ok (⟨(source ++ f, sh), dhs⟩ :: tl)

/-- hash_dirs, backend.rs lines 202–237: enumerate the source tree, then
build one record per file. -/
def hash_dirs (hashFn : List String → Except Nat Nat) (source : List String)
    (dest : List (List String)) (rootd : FsDir) : Except Nat ChecksumReport :=
  match flatten_filetree rootd with
  | .error e => .error e
  | .ok files =>
      match hash_files hashFn source dest files with
      | .error e => .error e
      | .ok recs => .ok ⟨recs⟩

theorem collectDestHashes_ok_fst (hashFn : List String → Except Nat Nat) :
    ∀ (ps : List (List String)) (l : List (List String × Nat)),
      collectDestHashes hashFn ps = .ok l → l.map Prod.fst = ps := by
  intro ps
  induction ps with
  | nil =>
      intro l hl
      cases hl
      rfl
  | cons p rest ih =>
      intro l hl
      unfold collectDestHashes at hl
      cases hp : hashFn p with
      | error e => rw [hp] at hl; cases hl
      | ok h =>
          rw [hp] at hl
          cases hr : collectDestHashes hashFn rest with
          | error e => rw [hr] at hl; cases hl
          | ok tl =>
              rw [hr] at hl
              cases hl
              simp [ih tl hr]

theorem hash_files_shape (hashFn : List String → Except Nat Nat) (source : List String)
    (dest : List (List String)) :
    ∀ (files : List (List String)) (recs : List ChecksumReportSingleFile),
      hash_files hashFn source dest files = .ok recs →
      List.Forall₂ (fun rec f =>
          rec.source_hash.1 = source ++ f ∧
          rec.destination_hash.map Prod.fst = dest.map (fun d => d ++ f)) recs files := by
  intro files
  induction files with
  | nil =>
      intro recs h
      cases h
      exact List.Forall₂.nil
  | cons f rest ih =>
      intro recs h
      unfold hash_files at h
      cases hc : collectDestHashes hashFn (dest.map (fun d => d ++ f)) with
      | error e => rw [hc] at h; cases h
      | ok dhs =>
          rw [hc] at h
          cases hs : hashFn (source ++ f) with
          | error e => rw [hs] at h; cases h
          | ok sh =>
              rw [hs] at h
              cases hr : hash_files hashFn source dest rest with
              | error e => rw [hr] at h; cases h
              | ok tl =>
                  rw [hr] at h
                  cases h
                  exact List.Forall₂.cons
                    ⟨rfl, collectDestHashes_ok_fst hashFn _ dhs hc⟩ (ih tl hr)

theorem forall₂_mem_left {α β : Type} {R : α → β → Prop} :
    ∀ {l₁ : List α} {l₂ : List β}, List.Forall₂ R l₁ l₂ → ∀ a ∈ l₁, ∃ b, R a b := by
  intro l₁ l₂ h
  induction h with
  | nil => intro a ha; cases ha
  | cons hd tl ih =>
      intro a ha
      cases ha with
      | head => exact ⟨_, hd⟩
      | tail _ hmem => exact ih a hmem

/-- Claim C6: a successful run of hash_dirs yields exactly one record per
enumerated file, in the enumeration order of the tree flattener — record i's
source path is source joined with file i — and every record's
destination-hash list carries the destination roots' paths joined with that
record's file, in the order the roots were supplied (in particular its
length equals the number of destination roots). -/
theorem hash_dirs_report_shape (hashFn : List String → Except Nat Nat)
    (source : List String) (dest : List (List String)) (rootd : FsDir)
    (files : List (List String)) (report : ChecksumReport)
    (hflat : flatten_filetree rootd = .ok files)
    (hrun : hash_dirs hashFn source dest rootd = .ok report) :
    report.records.length = files.length ∧
      (∀ rec ∈ report.records, rec.destination_hash.length = dest.length) ∧
      List.Forall₂ (fun rec f =>
          rec.source_hash.1 = source ++ f ∧
          rec.destination_hash.map Prod.fst = dest.map (fun d => d ++ f))
        report.records files := by
  unfold hash_dirs at hrun
  rw [hflat] at hrun
  have hrun2 : (match hash_files hashFn source dest files with
      | Except.error e => Except.error e
      | Except.ok recs => Except.ok (ChecksumReport.mk recs)) = Except.ok report := hrun
  cases hh : hash_files hashFn source dest files with
  | error e => rw [hh] at hrun2; cases hrun2
  | ok recs =>
      rw [hh] at hrun2
      cases hrun2
      have hF := hash_files_shape hashFn source dest files recs hh
      refine ⟨hF.length_eq, ?_, hF⟩
      intro rec hrec
      obtain ⟨f, hRf⟩ := forall₂_mem_left hF rec hrec
      have hlen := congrArg List.length hRf.2
      simpa using hlen

/-- Witness for C6: one file "a", source root s, destination roots d1 and
d2, every hash 7. -/
theorem hash_dirs_report_shape_witness :
    (ChecksumReport.mk
        [⟨(["s", "a"], 7), [(["d1", "a"], 7), (["d2", "a"], 7)]⟩]).records.length =
        [["a"]].length ∧
      (∀ rec ∈ (ChecksumReport.mk
          [⟨(["s", "a"], 7), [(["d1", "a"], 7), (["d2", "a"], 7)]⟩]).records,
        rec.destination_hash.length = [["d1"], ["d2"]].length) ∧
      List.Forall₂ (fun rec f =>
          rec.source_hash.1 = ["s"] ++ f ∧
          rec.destination_hash.map Prod.fst = [["d1"], ["d2"]].map (fun d => d ++ f))
        (ChecksumReport.mk
          [⟨(["s", "a"], 7), [(["d1", "a"], 7), (["d2", "a"], 7)]⟩]).records
        [["a"]] := by
  exact hash_dirs_report_shape (fun _ => .ok 7) ["s"] [["d1"], ["d2"]]
    (FsDir.readable (FsList.cons (FsNode.file "a") FsList.nil)) [["a"]]
    (ChecksumReport.mk [⟨(["s", "a"], 7), [(["d1", "a"], 7), (["d2", "a"], 7)]⟩])
    rfl rfl

end LibreCard
